import Mathlib

/-!
Formal model of the timber-counter repository's overlay rendering core.

Source files modelled:
- src/components/DetectionCanvas.tsx : the `draw` callback (lines 21-63),
  which sizes the canvas from the container width, paints the decoded image,
  and paints a shadow stroke, a highlight stroke and a translucent fill for
  every bounding box; and the image-loading effect (lines 15-19), which
  creates an `Image` per `imageSrc` and installs an unconditional `onload`
  handler calling `setImageObj(img)`.
- src/App.tsx : `generateMockDetections` (lines 22-41).
- src/types.ts : `BoundingBox`, `DetectionResponse`.

JavaScript numbers are modelled as exact rationals; DOM integer quantities
(`naturalWidth`, `naturalHeight`, `clientWidth`) as naturals.  The canvas 2D
context is modelled as a state machine (current stroke style, fill style,
line width, line join) that appends an immediate-mode operation record per
`drawImage` / `strokeRect` / `fillRect` call; assigning `canvas.width` /
`canvas.height` discards all previously painted content, per the HTML canvas
contract the component relies on (spec section 4.2: resizing the surface
implicitly clears all prior painted content).  The rendered pixels are a
fold of source-over alpha blending across the operation trace, with a
rectangle's stroke rasterised as the band of width `lineWidth` centred on
the rectangle's boundary.  The opaque image source string is modelled as a
natural-number identifier.
-/

namespace Timber

/-- BoundingBox from src/types.ts: `[x1, y1, x2, y2]` in image pixel space. -/
abbrev BoundingBox := ℚ × ℚ × ℚ × ℚ

/-- DetectionResponse from src/types.ts: a log count and a box list. -/
structure DetectionResponse where
  log_count : ℕ
  detections : List BoundingBox
deriving DecidableEq

/-- A decoded bitmap with its natural pixel dimensions (the `HTMLImageElement`
fields `naturalWidth` / `naturalHeight` read by `draw`). -/
structure DecodedImage where
  naturalWidth : ℕ
  naturalHeight : ℕ
deriving DecidableEq

/-- An RGBA paint style; channels are rationals, alpha in `[0,1]`. -/
structure Color where
  r : ℚ
  g : ℚ
  b : ℚ
  a : ℚ
deriving DecidableEq

/-- Canvas `lineJoin` values. -/
inductive LineJoin where
  | miter
  | round
  | bevel
deriving DecidableEq

/-- `'#22c55e'` (Green-500), set before the detection loop. -/
def green500 : Color := ⟨34, 197, 94, 1⟩

/-- `'rgba(0,0,0,0.5)'`, the shadow stroke style. -/
def shadow50 : Color := ⟨0, 0, 0, 1/2⟩

/-- `'#4ade80'` (the brighter accent green), the highlight stroke style. -/
def green400 : Color := ⟨74, 222, 128, 1⟩

/-- `'rgba(74, 222, 128, 0.15)'`, the translucent accent fill style. -/
def green400Fill : Color := ⟨74, 222, 128, 3/20⟩

/-- An axis-aligned rectangle given by origin and (possibly negative)
width and height, as passed to `strokeRect` / `fillRect`. -/
structure Rect where
  x : ℚ
  y : ℚ
  w : ℚ
  h : ℚ
deriving DecidableEq

/-- One immediate-mode canvas operation, recorded with the context style
values in effect at the moment of the call. -/
inductive DrawOp where
  | drawImage (img : DecodedImage) (x y w h : ℚ)
  | strokeRect (style : Color) (lineWidth : ℚ) (lineJoin : LineJoin) (x y w h : ℚ)
  | fillRect (style : Color) (x y w h : ℚ)
deriving DecidableEq

/-- The rectangle an operation was issued at. -/
def DrawOp.rect : DrawOp → Rect
  | DrawOp.drawImage _ x y w h => ⟨x, y, w, h⟩
  | DrawOp.strokeRect _ _ _ x y w h => ⟨x, y, w, h⟩
  | DrawOp.fillRect _ x y w h => ⟨x, y, w, h⟩

/-- Test for a stroke operation. -/
def DrawOp.isStroke : DrawOp → Bool
  | DrawOp.strokeRect _ _ _ _ _ _ _ => true
  | _ => false

/-- Test for a fill operation. -/
def DrawOp.isFill : DrawOp → Bool
  | DrawOp.fillRect _ _ _ _ _ => true
  | _ => false

/-- The 2D context: current styles plus the trace of operations painted since
the canvas was last cleared. -/
structure Ctx where
  strokeStyle : Color
  fillStyle : Color
  lineWidth : ℚ
  lineJoin : LineJoin
  ops : List DrawOp
deriving DecidableEq

/-- A freshly reset context (defaults: black styles, line width 1, miter
join) over a cleared canvas. -/
def Ctx.reset : Ctx := ⟨⟨0, 0, 0, 1⟩, ⟨0, 0, 0, 1⟩, 1, LineJoin.miter, []⟩

/-- `ctx.strokeStyle = c`. -/
def Ctx.setStrokeStyle (ctx : Ctx) (c : Color) : Ctx :=
  ⟨c, ctx.fillStyle, ctx.lineWidth, ctx.lineJoin, ctx.ops⟩

/-- `ctx.fillStyle = c`. -/
def Ctx.setFillStyle (ctx : Ctx) (c : Color) : Ctx :=
  ⟨ctx.strokeStyle, c, ctx.lineWidth, ctx.lineJoin, ctx.ops⟩

/-- `ctx.lineWidth = lw`. -/
def Ctx.setLineWidth (ctx : Ctx) (lw : ℚ) : Ctx :=
  ⟨ctx.strokeStyle, ctx.fillStyle, lw, ctx.lineJoin, ctx.ops⟩

/-- `ctx.lineJoin = lj`. -/
def Ctx.setLineJoin (ctx : Ctx) (lj : LineJoin) : Ctx :=
  ⟨ctx.strokeStyle, ctx.fillStyle, ctx.lineWidth, lj, ctx.ops⟩

/-- `ctx.drawImage(img, x, y, w, h)`. -/
def Ctx.drawImage (ctx : Ctx) (img : DecodedImage) (x y w h : ℚ) : Ctx :=
  ⟨ctx.strokeStyle, ctx.fillStyle, ctx.lineWidth, ctx.lineJoin,
    ctx.ops ++ [DrawOp.drawImage img x y w h]⟩

/-- `ctx.strokeRect(x, y, w, h)` under the current stroke style, line width
and line join. -/
def Ctx.strokeRect (ctx : Ctx) (x y w h : ℚ) : Ctx :=
  ⟨ctx.strokeStyle, ctx.fillStyle, ctx.lineWidth, ctx.lineJoin,
    ctx.ops ++ [DrawOp.strokeRect ctx.strokeStyle ctx.lineWidth ctx.lineJoin x y w h]⟩

/-- `ctx.fillRect(x, y, w, h)` under the current fill style. -/
def Ctx.fillRect (ctx : Ctx) (x y w h : ℚ) : Ctx :=
  ⟨ctx.strokeStyle, ctx.fillStyle, ctx.lineWidth, ctx.lineJoin,
    ctx.ops ++ [DrawOp.fillRect ctx.fillStyle x y w h]⟩

/-- The canvas element: its width and height attributes and the operations
painted since it was last cleared. -/
structure Surface where
  width : ℚ
  height : ℚ
  ops : List DrawOp
deriving DecidableEq

/-- The container div; `clientWidth` is an integer number of pixels. -/
structure Container where
  clientWidth : ℕ
deriving DecidableEq

/-- The body of `detections.forEach(([x1, y1, x2, y2]) => ...)` in
DetectionCanvas.tsx lines 45-62: a shadow stroke (width 5, 50% black), a
highlight stroke (width 2, accent green) and a translucent fill, all at the
scaled rectangle. -/
def drawDetection (scaleFactor : ℚ) (ctx : Ctx) : BoundingBox → Ctx :=
  fun (x1, y1, x2, y2) =>
    let width := (x2 - x1) * scaleFactor
    let height := (y2 - y1) * scaleFactor
    let ctx := ctx.setStrokeStyle shadow50
    let ctx := ctx.setLineWidth 5
    let ctx := ctx.strokeRect (x1 * scaleFactor) (y1 * scaleFactor) width height
    let ctx := ctx.setStrokeStyle green400
    let ctx := ctx.setLineWidth 2
    let ctx := ctx.strokeRect (x1 * scaleFactor) (y1 * scaleFactor) width height
    let ctx := ctx.setFillStyle green400Fill
    ctx.fillRect (x1 * scaleFactor) (y1 * scaleFactor) width height

/-- DetectionCanvas.tsx lines 29-62 after the early guards: compute the
scale factor and display height, size the canvas (which clears it and resets
the context), paint the base image, set the pre-loop styles, then paint
every detection in order. -/
def renderScene (imageObj : DecodedImage) (containerWidth : ℕ)
    (detections : List BoundingBox) : Surface :=
  let scaleFactor : ℚ := (containerWidth : ℚ) / (imageObj.naturalWidth : ℚ)
  let displayHeight : ℚ := (imageObj.naturalHeight : ℚ) * scaleFactor
  let ctx := Ctx.reset
  let ctx := ctx.drawImage imageObj 0 0 (containerWidth : ℚ) displayHeight
  let ctx := ctx.setStrokeStyle green500
  let ctx := ctx.setLineWidth 3
  let ctx := ctx.setLineJoin LineJoin.round
  let ctx := detections.foldl (drawDetection scaleFactor) ctx
  ⟨(containerWidth : ℚ), displayHeight, ctx.ops⟩

/-- The `draw` callback, DetectionCanvas.tsx lines 21-63.  The argument
`canvas` is the surface currently held by `canvasRef` (none when the ref is
unattached), `container` the div ref, `ctxOk` whether `getContext('2d')`
returns a context, `imageObj` the decoded-image state.  Early-exit paths
return the canvas untouched; the successful path replaces its contents with
a fresh full repaint. -/
def draw (canvas : Option Surface) (container : Option Container) (ctxOk : Bool)
    (imageObj : Option DecodedImage) (detections : List BoundingBox) : Option Surface :=
  match canvas, container, imageObj with
  | some _, some container, some imageObj =>
    if ctxOk then some (renderScene imageObj container.clientWidth detections) else canvas
  | _, _, _ => canvas

/-- The three operations `drawDetection` emits for one box at a given scale
factor. -/
def boxOps (s : ℚ) : BoundingBox → List DrawOp :=
  fun (x1, y1, x2, y2) =>
    [DrawOp.strokeRect shadow50 5 LineJoin.round (x1 * s) (y1 * s) ((x2 - x1) * s) ((y2 - y1) * s),
     DrawOp.strokeRect green400 2 LineJoin.round (x1 * s) (y1 * s) ((x2 - x1) * s) ((y2 - y1) * s),
     DrawOp.fillRect green400Fill (x1 * s) (y1 * s) ((x2 - x1) * s) ((y2 - y1) * s)]

/-- Concatenation of the per-box operations over a detection list. -/
def boxOpsList (s : ℚ) : List BoundingBox → List DrawOp
  | [] => []
  | b :: t => boxOps s b ++ boxOpsList s t

/-- `generateMockDetections` from src/App.tsx lines 22-41, after the image
supplied to it has decoded with the given natural dimensions.  `rand` is the
stream of `Math.random()` results, consumed in call order: one draw for the
count, then three draws per box. -/
def generateMockDetections (rand : ℕ → ℚ) (naturalWidth naturalHeight : ℕ) :
    DetectionResponse :=
  let width : ℚ := (naturalWidth : ℚ)
  let height : ℚ := (naturalHeight : ℚ)
  let count : ℕ := (⌊rand 0 * 10⌋).toNat + 15
  let detections : List BoundingBox := (List.range count).map (fun i =>
    let size : ℚ := rand (3 * i + 1) * (width * (1/10)) + width * (1/20)
    let x : ℚ := rand (3 * i + 2) * (width - size)
    let y : ℚ := rand (3 * i + 3) * (height - size)
    (x, y, x + size, y + size))
  ⟨count, detections⟩

/-- An `Image` created by the loading effect; its `src` is an opaque source
reference, modelled as a natural number. -/
structure LoaderImage where
  src : ℕ
deriving DecidableEq

/-- The state relevant to DetectionCanvas.tsx lines 13-19: the current
`imageSrc` prop, the images whose `onload` has not yet fired, and the
`imageObj` React state the renderer draws from. -/
structure ComponentState where
  imageSrc : ℕ
  pending : List LoaderImage
  imageObj : Option LoaderImage
deriving DecidableEq

/-- Mounting with an initial `imageSrc`: the effect runs once, creating an
`Image` for that source. -/
def mount (s : ℕ) : ComponentState := ⟨s, [⟨s⟩], none⟩

/-- A new `imageSrc` prop arrives: the effect re-runs and creates a new
`Image` for the new source.  The effect has no cleanup, so the previous
image keeps its `onload` handler and stays pending. -/
def setImageSrc (s : ℕ) (st : ComponentState) : ComponentState :=
  ⟨s, st.pending ++ [⟨s⟩], st.imageObj⟩

/-- A pending image finishes decoding: its handler runs
`setImageObj(img)` unconditionally, with no check that `img` still matches
the current `imageSrc`. -/
def fireOnload (img : LoaderImage) (st : ComponentState) : ComponentState :=
  if img ∈ st.pending then ⟨st.imageSrc, st.pending.erase img, some img⟩ else st

/-- An opaque rendered pixel colour (the canvas below any overlay is
opaque, so no alpha channel is carried). -/
structure RGB where
  r : ℚ
  g : ℚ
  b : ℚ
deriving DecidableEq

/-- Source-over compositing of a translucent paint onto an opaque pixel. -/
def blend (src : Color) (dst : RGB) : RGB :=
  ⟨src.a * src.r + (1 - src.a) * dst.r,
   src.a * src.g + (1 - src.a) * dst.g,
   src.a * src.b + (1 - src.a) * dst.b⟩

/-- The smaller of two rationals, by an explicit comparison so that pixel
computations evaluate. -/
def qmin (a b : ℚ) : ℚ := if a ≤ b then a else b

/-- The larger of two rationals. -/
def qmax (a b : ℚ) : ℚ := if a ≤ b then b else a

/-- Membership in the (closed) rectangle with origin `(x, y)` and signed
extents `(w, h)`. -/
def inFill (x y w h px py : ℚ) : Prop :=
  qmin x (x + w) ≤ px ∧ px ≤ qmax x (x + w) ∧ qmin y (y + h) ≤ py ∧ py ≤ qmax y (y + h)

/-- Membership in the stroked outline of that rectangle: the band of width
`lw` centred on its boundary. -/
def inStroke (lw x y w h px py : ℚ) : Prop :=
  (qmin x (x + w) - lw/2 ≤ px ∧ px ≤ qmax x (x + w) + lw/2 ∧
   qmin y (y + h) - lw/2 ≤ py ∧ py ≤ qmax y (y + h) + lw/2) ∧
  ¬ (qmin x (x + w) + lw/2 < px ∧ px < qmax x (x + w) - lw/2 ∧
     qmin y (y + h) + lw/2 < py ∧ py < qmax y (y + h) - lw/2)

instance (x y w h px py : ℚ) : Decidable (inFill x y w h px py) :=
  inferInstanceAs (Decidable (_ ∧ _ ∧ _ ∧ _))

instance (lw x y w h px py : ℚ) : Decidable (inStroke lw x y w h px py) :=
  inferInstanceAs (Decidable ((_ ∧ _ ∧ _ ∧ _) ∧ ¬(_ ∧ _ ∧ _ ∧ _)))

/-- Sampling the source bitmap when it is drawn stretched onto the
destination rectangle; `base` is the bitmap's colour field in its own
natural coordinates. -/
def sampleImage (base : ℚ → ℚ → RGB) (img : DecodedImage) (x y w h px py : ℚ) : RGB :=
  base ((px - x) * (img.naturalWidth : ℚ) / w) ((py - y) * (img.naturalHeight : ℚ) / h)

/-- The effect of one operation on the pixel at `(px, py)`. -/
def paintOp (base : ℚ → ℚ → RGB) (px py : ℚ) (c : RGB) : DrawOp → RGB
  | DrawOp.drawImage img x y w h =>
    if inFill x y w h px py then sampleImage base img x y w h px py else c
  | DrawOp.strokeRect style lw _ x y w h =>
    if inStroke lw x y w h px py then blend style c else c
  | DrawOp.fillRect style x y w h =>
    if inFill x y w h px py then blend style c else c

/-- The colour of the pixel at `(px, py)` after replaying a surface's
operation trace over a cleared (black) canvas. -/
def pixelColor (base : ℚ → ℚ → RGB) (s : Surface) (px py : ℚ) : RGB :=
  s.ops.foldl (paintOp base px py) ⟨0, 0, 0⟩

/-- The scaled rectangle `drawDetection` paints for a box. -/
def scaledRect (s : ℚ) : BoundingBox → Rect :=
  fun (x1, y1, x2, y2) => ⟨x1 * s, y1 * s, (x2 - x1) * s, (y2 - y1) * s⟩

/-- Left edge of the outermost region a box's paint can reach (its widest
stroke extends 5/2 beyond the rectangle). -/
def Rect.xlo (r : Rect) : ℚ := qmin r.x (r.x + r.w) - 5/2

/-- Right edge of the outermost paintable region. -/
def Rect.xhi (r : Rect) : ℚ := qmax r.x (r.x + r.w) + 5/2

/-- Top edge of the outermost paintable region. -/
def Rect.ylo (r : Rect) : ℚ := qmin r.y (r.y + r.h) - 5/2

/-- Bottom edge of the outermost paintable region. -/
def Rect.yhi (r : Rect) : ℚ := qmax r.y (r.y + r.h) + 5/2

/-- Membership in the outer envelope of everything a box's three operations
can touch. -/
def inOuter (s : ℚ) (b : BoundingBox) (px py : ℚ) : Prop :=
  (scaledRect s b).xlo ≤ px ∧ px ≤ (scaledRect s b).xhi ∧
  (scaledRect s b).ylo ≤ py ∧ py ≤ (scaledRect s b).yhi

/-- Two boxes whose painted envelopes are separated by an axis gap; such
boxes' paints touch disjoint pixel sets. -/
def separated (s : ℚ) (a b : BoundingBox) : Prop :=
  (scaledRect s a).xhi < (scaledRect s b).xlo ∨ (scaledRect s b).xhi < (scaledRect s a).xlo ∨
  (scaledRect s a).yhi < (scaledRect s b).ylo ∨ (scaledRect s b).yhi < (scaledRect s a).ylo

instance (s : ℚ) (a b : BoundingBox) : Decidable (separated s a b) :=
  inferInstanceAs (Decidable (_ ∨ _ ∨ _ ∨ _))

instance (s : ℚ) (b : BoundingBox) (px py : ℚ) : Decidable (inOuter s b px py) :=
  inferInstanceAs (Decidable (_ ∧ _ ∧ _ ∧ _))

/-- The combined effect of one box's three operations on a pixel. -/
def paintBox (base : ℚ → ℚ → RGB) (px py s : ℚ) (c : RGB) (b : BoundingBox) : RGB :=
  (boxOps s b).foldl (paintOp base px py) c

/-- Painting one detection leaves the context's line join unchanged. -/
lemma drawDetection_lineJoin (s : ℚ) (ctx : Ctx) (b : BoundingBox) :
    (drawDetection s ctx b).lineJoin = ctx.lineJoin := by
  obtain ⟨x1, y1, x2, y2⟩ := b
  rfl

/-- Painting one detection appends exactly its three operations, provided
the context's line join is the `round` value installed before the loop. -/
lemma drawDetection_ops (s : ℚ) (ctx : Ctx) (b : BoundingBox)
    (hj : ctx.lineJoin = LineJoin.round) :
    (drawDetection s ctx b).ops = ctx.ops ++ boxOps s b := by
  obtain ⟨x1, y1, x2, y2⟩ := b
  simp [drawDetection, boxOps, Ctx.setStrokeStyle, Ctx.setLineWidth, Ctx.setFillStyle,
    Ctx.strokeRect, Ctx.fillRect, hj]

/-- The detection loop appends the concatenation of all per-box operations. -/
lemma foldl_drawDetection (s : ℚ) :
    ∀ (l : List BoundingBox) (ctx : Ctx), ctx.lineJoin = LineJoin.round →
      (l.foldl (drawDetection s) ctx).ops = ctx.ops ++ boxOpsList s l := by
  intro l
  induction l with
  | nil => intro ctx _; simp [boxOpsList]
  | cons b t ih =>
    intro ctx hj
    simp only [List.foldl_cons, boxOpsList]
    rw [ih (drawDetection s ctx b) (by rw [drawDetection_lineJoin, hj]),
      drawDetection_ops s ctx b hj, List.append_assoc]

/-- The full operation trace of a render: the base image paint followed by
every box's operations in detection order. -/
lemma renderScene_ops (img : DecodedImage) (C : ℕ) (dets : List BoundingBox) :
    (renderScene img C dets).ops =
      DrawOp.drawImage img 0 0 (C : ℚ)
          ((img.naturalHeight : ℚ) * ((C : ℚ) / (img.naturalWidth : ℚ))) ::
        boxOpsList ((C : ℚ) / (img.naturalWidth : ℚ)) dets := by
  simp only [renderScene]
  rw [foldl_drawDetection _ dets _ rfl]
  simp [Ctx.reset, Ctx.drawImage, Ctx.setStrokeStyle, Ctx.setLineWidth, Ctx.setLineJoin]

/-- The surface width is the container width. -/
lemma renderScene_width (img : DecodedImage) (C : ℕ) (dets : List BoundingBox) :
    (renderScene img C dets).width = (C : ℚ) := rfl

/-- The surface height is the natural height times the scale factor. -/
lemma renderScene_height (img : DecodedImage) (C : ℕ) (dets : List BoundingBox) :
    (renderScene img C dets).height =
      (img.naturalHeight : ℚ) * ((C : ℚ) / (img.naturalWidth : ℚ)) := rfl

/-- A member box's operations appear as a contiguous segment of the
concatenated trace. -/
lemma boxOpsList_split (s : ℚ) (b : BoundingBox) :
    ∀ l : List BoundingBox, b ∈ l →
      ∃ pre post, boxOpsList s l = pre ++ boxOps s b ++ post := by
  intro l
  induction l with
  | nil => intro hb; cases hb
  | cons c t ih =>
    intro hb
    rcases List.mem_cons.mp hb with h | h
    · subst h
      exact ⟨[], boxOpsList s t, by simp [boxOpsList]⟩
    · obtain ⟨pre, post, hpp⟩ := ih h
      refine ⟨boxOps s c ++ pre, post, ?_⟩
      simp [boxOpsList, hpp]

/-- Unfolding `paintOp` at a stroke operation. -/
lemma paintOp_strokeRect (base : ℚ → ℚ → RGB) (px py : ℚ) (c : RGB) (style : Color)
    (lw : ℚ) (lj : LineJoin) (x y w h : ℚ) :
    paintOp base px py c (DrawOp.strokeRect style lw lj x y w h) =
      if inStroke lw x y w h px py then blend style c else c := rfl

/-- Unfolding `paintOp` at a fill operation. -/
lemma paintOp_fillRect (base : ℚ → ℚ → RGB) (px py : ℚ) (c : RGB) (style : Color)
    (x y w h : ℚ) :
    paintOp base px py c (DrawOp.fillRect style x y w h) =
      if inFill x y w h px py then blend style c else c := rfl

/-- A box's three operations only touch pixels inside its outer envelope. -/
lemma paintBox_of_not_inOuter (base : ℚ → ℚ → RGB) (px py s : ℚ) (b : BoundingBox)
    (h : ¬ inOuter s b px py) (c : RGB) : paintBox base px py s c b = c := by
  obtain ⟨x1, y1, x2, y2⟩ := b
  have houter : (scaledRect s (x1, y1, x2, y2)).xlo ≤ px →
      px ≤ (scaledRect s (x1, y1, x2, y2)).xhi →
      (scaledRect s (x1, y1, x2, y2)).ylo ≤ py →
      py ≤ (scaledRect s (x1, y1, x2, y2)).yhi → False := by
    intro h1 h2 h3 h4
    exact h ⟨h1, h2, h3, h4⟩
  simp only [scaledRect, Rect.xlo, Rect.xhi, Rect.ylo, Rect.yhi] at houter
  have hstroke : ∀ lw : ℚ, 0 ≤ lw → lw ≤ 5 →
      ¬ inStroke lw (x1 * s) (y1 * s) ((x2 - x1) * s) ((y2 - y1) * s) px py := by
    intro lw h0 h5 hs
    obtain ⟨⟨a1, a2, a3, a4⟩, -⟩ := hs
    exact houter (by linarith) (by linarith) (by linarith) (by linarith)
  have hfill : ¬ inFill (x1 * s) (y1 * s) ((x2 - x1) * s) ((y2 - y1) * s) px py := by
    intro hf
    obtain ⟨a1, a2, a3, a4⟩ := hf
    exact houter (by linarith) (by linarith) (by linarith) (by linarith)
  show (boxOps s (x1, y1, x2, y2)).foldl (paintOp base px py) c = c
  simp only [boxOps, List.foldl_cons, List.foldl_nil, paintOp_strokeRect, paintOp_fillRect]
  rw [if_neg (hstroke 5 (by norm_num) (by norm_num)),
    if_neg (hstroke 2 (by norm_num) (by norm_num)), if_neg hfill]

/-- Separation is symmetric. -/
lemma separated_symm (s : ℚ) {a b : BoundingBox} (hab : separated s a b) :
    separated s b a := by
  unfold separated at hab ⊢
  tauto

/-- Separated boxes cannot both reach the same pixel. -/
lemma separated_not_both (s : ℚ) (a b : BoundingBox) (px py : ℚ) (hsep : separated s a b)
    (ha : inOuter s a px py) (hb : inOuter s b px py) : False := by
  obtain ⟨a1, a2, a3, a4⟩ := ha
  obtain ⟨b1, b2, b3, b4⟩ := hb
  rcases hsep with h | h | h | h <;> linarith

/-- Painting two separated boxes commutes at every pixel. -/
lemma paintBox_comm (base : ℚ → ℚ → RGB) (px py s : ℚ) (a b : BoundingBox)
    (hsep : separated s a b) (c : RGB) :
    paintBox base px py s (paintBox base px py s c a) b =
      paintBox base px py s (paintBox base px py s c b) a := by
  by_cases ha : inOuter s a px py
  · have hb : ¬ inOuter s b px py := fun hb => separated_not_both s a b px py hsep ha hb
    rw [paintBox_of_not_inOuter base px py s b hb, paintBox_of_not_inOuter base px py s b hb]
  · rw [paintBox_of_not_inOuter base px py s a ha, paintBox_of_not_inOuter base px py s a ha]

/-- Replaying a concatenated trace box by box. -/
lemma foldl_boxOpsList (base : ℚ → ℚ → RGB) (px py s : ℚ) :
    ∀ (l : List BoundingBox) (c : RGB),
      (boxOpsList s l).foldl (paintOp base px py) c = l.foldl (paintBox base px py s) c := by
  intro l
  induction l with
  | nil => intro c; rfl
  | cons b t ih =>
    intro c
    simp only [boxOpsList, List.foldl_append, List.foldl_cons]
    rw [ih]
    rfl

/-- For a pairwise-separated detection list, the per-pixel paint fold is
invariant under permutation. -/
lemma foldl_paintBox_perm (base : ℚ → ℚ → RGB) (px py s : ℚ)
    {l l' : List BoundingBox} (hperm : List.Perm l l') :
    List.Pairwise (separated s) l →
      ∀ c : RGB, l.foldl (paintBox base px py s) c = l'.foldl (paintBox base px py s) c := by
  induction hperm with
  | nil => intro _ c; rfl
  | cons x _ ih =>
    intro hp c
    simp only [List.foldl_cons]
    exact ih (List.pairwise_cons.mp hp).2 _
  | swap x y t =>
    intro hp c
    simp only [List.foldl_cons]
    rw [paintBox_comm base px py s y x ((List.pairwise_cons.mp hp).1 x (List.mem_cons_self x t)) c]
  | trans h1 _ ih1 ih2 =>
    intro hp c
    rw [ih1 hp c, ih2 ((h1.pairwise_iff (fun hab => separated_symm s hab)).mp hp) c]

/-- Claim C1: for every decoded image with natural size (W, H), W > 0, and
every container width C, a render call sets the surface width to C and the
surface height to the exact value H*C/W, which preserves the aspect ratio
and agrees with round(H*C/W) to within rounding (distance at most 1/2). -/
theorem draw_surface_dimensions (cv : Surface) (cont : Container) (img : DecodedImage)
    (dets : List BoundingBox) (hW : 0 < img.naturalWidth) :
    ∃ out : Surface, draw (some cv) (some cont) true (some img) dets = some out ∧
      out.width = (cont.clientWidth : ℚ) ∧
      out.height = ((img.naturalHeight : ℚ) * (cont.clientWidth : ℚ)) / (img.naturalWidth : ℚ) ∧
      out.height * (img.naturalWidth : ℚ) = (img.naturalHeight : ℚ) * (cont.clientWidth : ℚ) ∧
      |out.height -
          ((round (((img.naturalHeight : ℚ) * (cont.clientWidth : ℚ)) / (img.naturalWidth : ℚ)) : ℤ) : ℚ)| ≤
        1 / 2 := by
  have hW' : (img.naturalWidth : ℚ) ≠ 0 := Nat.cast_ne_zero.mpr hW.ne'
  refine ⟨renderScene img cont.clientWidth dets, rfl, rfl, ?_, ?_, ?_⟩
  · rw [renderScene_height, mul_div_assoc]
  · rw [renderScene_height]
    field_simp
  · rw [renderScene_height, ← mul_div_assoc]
    exact abs_sub_round _

/-- Witness for C1 at the spec's concrete scenario: a 1200 by 800 image in a
600 pixel container. -/
theorem draw_surface_dimensions_witness :
    0 < (⟨1200, 800⟩ : DecodedImage).naturalWidth ∧
    ∃ out : Surface, draw (some ⟨0, 0, []⟩) (some ⟨600⟩) true (some ⟨1200, 800⟩) [] = some out ∧
      out.width = (((⟨600⟩ : Container).clientWidth : ℕ) : ℚ) ∧
      out.height = (((⟨1200, 800⟩ : DecodedImage).naturalHeight : ℚ) *
          (((⟨600⟩ : Container).clientWidth : ℕ) : ℚ)) / ((⟨1200, 800⟩ : DecodedImage).naturalWidth : ℚ) ∧
      out.height * ((⟨1200, 800⟩ : DecodedImage).naturalWidth : ℚ) =
        ((⟨1200, 800⟩ : DecodedImage).naturalHeight : ℚ) * (((⟨600⟩ : Container).clientWidth : ℕ) : ℚ) ∧
      |out.height -
          ((round ((((⟨1200, 800⟩ : DecodedImage).naturalHeight : ℚ) *
              (((⟨600⟩ : Container).clientWidth : ℕ) : ℚ)) /
              ((⟨1200, 800⟩ : DecodedImage).naturalWidth : ℚ)) : ℤ) : ℚ)| ≤ 1 / 2 :=
  ⟨by decide, draw_surface_dimensions ⟨0, 0, []⟩ ⟨600⟩ ⟨1200, 800⟩ [] (by decide)⟩

/-- Claim C2: for every decoded image with natural width W > 0, container
width C with scale s = C / W, and bounding box (x1, y1, x2, y2) in the
detection set, the render trace contains that box's paint operations as a
contiguous segment, and every one of them is issued at the rectangle with
top-left (x1*s, y1*s) and size ((x2-x1)*s, (y2-y1)*s). -/
theorem painted_box_transform (img : DecodedImage) (cont : Container)
    (dets : List BoundingBox) (x1 y1 x2 y2 s : ℚ)
    (hW : 0 < img.naturalWidth)
    (hs : s = (cont.clientWidth : ℚ) / (img.naturalWidth : ℚ))
    (hb : (x1, y1, x2, y2) ∈ dets) :
    ∃ pre post,
      (renderScene img cont.clientWidth dets).ops = pre ++ boxOps s (x1, y1, x2, y2) ++ post ∧
      (boxOps s (x1, y1, x2, y2)).map DrawOp.rect =
        [⟨x1 * s, y1 * s, (x2 - x1) * s, (y2 - y1) * s⟩,
         ⟨x1 * s, y1 * s, (x2 - x1) * s, (y2 - y1) * s⟩,
         ⟨x1 * s, y1 * s, (x2 - x1) * s, (y2 - y1) * s⟩] := by
  subst hs
  obtain ⟨pre, post, hsplit⟩ :=
    boxOpsList_split ((cont.clientWidth : ℚ) / (img.naturalWidth : ℚ)) (x1, y1, x2, y2) dets hb
  refine ⟨DrawOp.drawImage img 0 0 (cont.clientWidth : ℚ)
      ((img.naturalHeight : ℚ) * ((cont.clientWidth : ℚ) / (img.naturalWidth : ℚ))) :: pre,
    post, ?_, rfl⟩
  rw [renderScene_ops, hsplit]
  simp

/-- Witness for C2 at the spec's concrete scenario: box (100,100,300,300)
at scale 1/2 paints at (50,50) with size (100,100). -/
theorem painted_box_transform_witness :
    0 < (⟨1200, 800⟩ : DecodedImage).naturalWidth ∧
    (1/2 : ℚ) = (((⟨600⟩ : Container).clientWidth : ℕ) : ℚ) /
      ((⟨1200, 800⟩ : DecodedImage).naturalWidth : ℚ) ∧
    ((100 : ℚ), (100 : ℚ), (300 : ℚ), (300 : ℚ)) ∈
      [((100 : ℚ), (100 : ℚ), (300 : ℚ), (300 : ℚ))] ∧
    ∃ pre post,
      (renderScene ⟨1200, 800⟩ (⟨600⟩ : Container).clientWidth
          [((100 : ℚ), (100 : ℚ), (300 : ℚ), (300 : ℚ))]).ops =
        pre ++ boxOps (1/2) (100, 100, 300, 300) ++ post ∧
      (boxOps (1/2 : ℚ) (100, 100, 300, 300)).map DrawOp.rect =
        [⟨100 * (1/2), 100 * (1/2), (300 - 100) * (1/2), (300 - 100) * (1/2)⟩,
         ⟨100 * (1/2), 100 * (1/2), (300 - 100) * (1/2), (300 - 100) * (1/2)⟩,
         ⟨100 * (1/2), 100 * (1/2), (300 - 100) * (1/2), (300 - 100) * (1/2)⟩] :=
  ⟨by decide, by norm_num,
    List.mem_cons_self _ _,
    painted_box_transform ⟨1200, 800⟩ ⟨600⟩ _ 100 100 300 300 (1/2)
      (by decide) (by norm_num) (List.mem_cons_self _ _)⟩

/-- Claim C8: for every box in the detection set the renderer paints, in
order on the same scaled rectangle, a 5-unit-wide 50%-opacity black shadow
stroke, then a 2-unit-wide accent (bright green) highlight stroke, then a
15%-opacity fill in the same accent hue. -/
theorem box_paint_sequence (img : DecodedImage) (cont : Container)
    (dets : List BoundingBox) (x1 y1 x2 y2 s : ℚ)
    (hW : 0 < img.naturalWidth)
    (hs : s = (cont.clientWidth : ℚ) / (img.naturalWidth : ℚ))
    (hb : (x1, y1, x2, y2) ∈ dets) :
    ∃ pre post,
      (renderScene img cont.clientWidth dets).ops =
        pre ++
          [DrawOp.strokeRect ⟨0, 0, 0, 1/2⟩ 5 LineJoin.round
              (x1 * s) (y1 * s) ((x2 - x1) * s) ((y2 - y1) * s),
           DrawOp.strokeRect ⟨74, 222, 128, 1⟩ 2 LineJoin.round
              (x1 * s) (y1 * s) ((x2 - x1) * s) ((y2 - y1) * s),
           DrawOp.fillRect ⟨74, 222, 128, 3/20⟩
              (x1 * s) (y1 * s) ((x2 - x1) * s) ((y2 - y1) * s)] ++ post := by
  subst hs
  obtain ⟨pre, post, hsplit⟩ :=
    boxOpsList_split ((cont.clientWidth : ℚ) / (img.naturalWidth : ℚ)) (x1, y1, x2, y2) dets hb
  refine ⟨DrawOp.drawImage img 0 0 (cont.clientWidth : ℚ)
      ((img.naturalHeight : ℚ) * ((cont.clientWidth : ℚ) / (img.naturalWidth : ℚ))) :: pre,
    post, ?_⟩
  rw [renderScene_ops, hsplit]
  simp [boxOps, shadow50, green400, green400Fill]

/-- Witness for C8 at the spec's full-image box (0,0,1200,800) in a 600
pixel container. -/
theorem box_paint_sequence_witness :
    0 < (⟨1200, 800⟩ : DecodedImage).naturalWidth ∧
    (1/2 : ℚ) = (((⟨600⟩ : Container).clientWidth : ℕ) : ℚ) /
      ((⟨1200, 800⟩ : DecodedImage).naturalWidth : ℚ) ∧
    ((0 : ℚ), (0 : ℚ), (1200 : ℚ), (800 : ℚ)) ∈
      [((0 : ℚ), (0 : ℚ), (1200 : ℚ), (800 : ℚ))] ∧
    ∃ pre post,
      (renderScene ⟨1200, 800⟩ (⟨600⟩ : Container).clientWidth
          [((0 : ℚ), (0 : ℚ), (1200 : ℚ), (800 : ℚ))]).ops =
        pre ++
          [DrawOp.strokeRect ⟨0, 0, 0, 1/2⟩ 5 LineJoin.round
              (0 * (1/2)) (0 * (1/2)) ((1200 - 0) * (1/2)) ((800 - 0) * (1/2)),
           DrawOp.strokeRect ⟨74, 222, 128, 1⟩ 2 LineJoin.round
              (0 * (1/2)) (0 * (1/2)) ((1200 - 0) * (1/2)) ((800 - 0) * (1/2)),
           DrawOp.fillRect ⟨74, 222, 128, 3/20⟩
              (0 * (1/2)) (0 * (1/2)) ((1200 - 0) * (1/2)) ((800 - 0) * (1/2))] ++ post :=
  ⟨by decide, by norm_num,
    List.mem_cons_self _ _,
    box_paint_sequence ⟨1200, 800⟩ ⟨600⟩ _ 0 0 1200 800 (1/2)
      (by decide) (by norm_num) (List.mem_cons_self _ _)⟩

/-- Claim C9: a bounding box with x2 < x1 or y2 < y1 is neither validated
nor rejected: the whole trace still contains one paint segment per box,
the malformed box's segment is present, and its painted rectangle has
non-positive width or height (zero or negative area); rendering is a total
function, so nothing crashes. -/
theorem malformed_box_degrades (img : DecodedImage) (cont : Container)
    (dets : List BoundingBox) (x1 y1 x2 y2 s : ℚ)
    (hs : s = (cont.clientWidth : ℚ) / (img.naturalWidth : ℚ))
    (hb : (x1, y1, x2, y2) ∈ dets)
    (hmal : x2 < x1 ∨ y2 < y1) :
    (renderScene img cont.clientWidth dets).ops =
      DrawOp.drawImage img 0 0 (cont.clientWidth : ℚ) ((img.naturalHeight : ℚ) * s) ::
        boxOpsList s dets ∧
    ((x2 - x1) * s ≤ 0 ∨ (y2 - y1) * s ≤ 0) ∧
    ∃ pre post, boxOpsList s dets = pre ++ boxOps s (x1, y1, x2, y2) ++ post := by
  subst hs
  have hs0 : 0 ≤ (cont.clientWidth : ℚ) / (img.naturalWidth : ℚ) :=
    div_nonneg (Nat.cast_nonneg _) (Nat.cast_nonneg _)
  refine ⟨renderScene_ops img cont.clientWidth dets, ?_,
    boxOpsList_split _ (x1, y1, x2, y2) dets hb⟩
  rcases hmal with h | h
  · exact Or.inl (mul_nonpos_iff.mpr (Or.inr ⟨by linarith, hs0⟩))
  · exact Or.inr (mul_nonpos_iff.mpr (Or.inr ⟨by linarith, hs0⟩))

/-- Witness for C9: the mirrored box (300,100,100,300) with x2 < x1. -/
theorem malformed_box_degrades_witness :
    (1/2 : ℚ) = (((⟨600⟩ : Container).clientWidth : ℕ) : ℚ) /
      ((⟨1200, 800⟩ : DecodedImage).naturalWidth : ℚ) ∧
    ((300 : ℚ), (100 : ℚ), (100 : ℚ), (300 : ℚ)) ∈
      [((300 : ℚ), (100 : ℚ), (100 : ℚ), (300 : ℚ))] ∧
    ((100 : ℚ) < 300 ∨ (300 : ℚ) < 100) ∧
    ((renderScene ⟨1200, 800⟩ (⟨600⟩ : Container).clientWidth
        [((300 : ℚ), (100 : ℚ), (100 : ℚ), (300 : ℚ))]).ops =
      DrawOp.drawImage ⟨1200, 800⟩ 0 0 ((⟨600⟩ : Container).clientWidth : ℕ)
          (((⟨1200, 800⟩ : DecodedImage).naturalHeight : ℚ) * (1/2)) ::
        boxOpsList (1/2) [((300 : ℚ), (100 : ℚ), (100 : ℚ), (300 : ℚ))] ∧
      (((100 : ℚ) - 300) * (1/2) ≤ 0 ∨ ((300 : ℚ) - 100) * (1/2) ≤ 0) ∧
      ∃ pre post, boxOpsList (1/2 : ℚ) [((300 : ℚ), (100 : ℚ), (100 : ℚ), (300 : ℚ))] =
        pre ++ boxOps (1/2) (300, 100, 100, 300) ++ post) :=
  ⟨by norm_num, List.mem_cons_self _ _, Or.inl (by norm_num),
    malformed_box_degrades ⟨1200, 800⟩ ⟨600⟩ _ 300 100 100 300 (1/2)
      (by norm_num) (List.mem_cons_self _ _) (Or.inl (by norm_num))⟩

/-- Claim C7: rendering with an empty detection set paints exactly the base
image and nothing else: the trace is the single drawImage operation and
contains no stroke and no fill. -/
theorem empty_detections_base_only (img : DecodedImage) (C : ℕ) :
    (renderScene img C []).ops =
      [DrawOp.drawImage img 0 0 (C : ℚ)
        ((img.naturalHeight : ℚ) * ((C : ℚ) / (img.naturalWidth : ℚ)))] ∧
    (renderScene img C []).ops.filter DrawOp.isStroke = [] ∧
    (renderScene img C []).ops.filter DrawOp.isFill = [] :=
  ⟨rfl, rfl, rfl⟩

/-- Claim C5: the renderer is a pure function of (decoded image, detection
set, container width): for any two prior surface states the render call
produces the same result, that result is the full repaint of the triple,
and repeating the call leaves the surface unchanged (pixel-identical
output each time). -/
theorem render_pure_idempotent (cont : Container) (img : DecodedImage)
    (dets : List BoundingBox) (s₁ s₂ : Surface) :
    draw (some s₁) (some cont) true (some img) dets =
      draw (some s₂) (some cont) true (some img) dets ∧
    draw (some s₁) (some cont) true (some img) dets =
      some (renderScene img cont.clientWidth dets) ∧
    draw (draw (some s₁) (some cont) true (some img) dets) (some cont) true (some img) dets =
      draw (some s₁) (some cont) true (some img) dets :=
  ⟨rfl, rfl, rfl⟩

/-- Claim C6: when the decoded image is absent, or the canvas or container
handle is unavailable, or no 2D context is obtainable, the render call
leaves the surface untouched; it is a total function, hence a no-op rather
than an error. -/
theorem draw_noop_when_not_ready (canvas : Option Surface) (container : Option Container)
    (ctxOk : Bool) (imageObj : Option DecodedImage) (dets : List BoundingBox)
    (h : imageObj = none ∨ canvas = none ∨ container = none ∨ ctxOk = false) :
    draw canvas container ctxOk imageObj dets = canvas := by
  rcases h with h | h | h | h
  · subst h; cases canvas <;> cases container <;> rfl
  · subst h; rfl
  · subst h; cases canvas <;> cases imageObj <;> rfl
  · subst h; cases canvas <;> cases container <;> cases imageObj <;> simp [draw]

/-- Witness for C6: with a decoded image still absent, the surface state is
returned unchanged. -/
theorem draw_noop_when_not_ready_witness :
    ((none : Option DecodedImage) = none ∨ (some ⟨7, 7, []⟩ : Option Surface) = none ∨
      (some ⟨600⟩ : Option Container) = none ∨ true = false) ∧
    draw (some ⟨7, 7, []⟩) (some ⟨600⟩) true none [((1 : ℚ), (2 : ℚ), (3 : ℚ), (4 : ℚ))] =
      some ⟨7, 7, []⟩ :=
  ⟨Or.inl rfl,
    draw_noop_when_not_ready (some ⟨7, 7, []⟩) (some ⟨600⟩) true none
      [((1 : ℚ), (2 : ℚ), (3 : ℚ), (4 : ℚ))] (Or.inl rfl)⟩

/-- Claim C3 (code behaviour at the failing input): source 0 is supplied and
begins decoding; source 1 is supplied before source 0's decode completes;
when source 0's image fires onload afterwards, the unconditional
`setImageObj(img)` handler installs the stale image, so the component
displays the image of source 0 while the current source is 1 — the decoded
image drawn does not correspond to the current image source. -/
theorem stale_decode_displayed :
    (fireOnload ⟨0⟩ (setImageSrc 1 (mount 0))).imageSrc = 1 ∧
    (fireOnload ⟨0⟩ (setImageSrc 1 (mount 0))).imageObj = some ⟨0⟩ ∧
    (LoaderImage.mk 0).src ≠ (fireOnload ⟨0⟩ (setImageSrc 1 (mount 0))).imageSrc := by
  decide

/-- Claim C10: for an image decoding at natural size W > 0, H > 0 and any
stream of random draws in [0, 1), the mock generator returns a log count
equal to the number of boxes, that count lies between 15 and 24, and every
box is a square (x, y, x+size, y+size) with positive side between 0.05*W
and 0.15*W, so x1 < x2 and y1 < y2 for every generated box. -/
theorem generateMockDetections_shape (rand : ℕ → ℚ) (W H : ℕ)
    (hW : 0 < W) (hH : 0 < H) (hr : ∀ i, 0 ≤ rand i ∧ rand i < 1) :
    (generateMockDetections rand W H).log_count =
      (generateMockDetections rand W H).detections.length ∧
    15 ≤ (generateMockDetections rand W H).log_count ∧
    (generateMockDetections rand W H).log_count ≤ 24 ∧
    ∀ b ∈ (generateMockDetections rand W H).detections,
      ∃ x y size : ℚ, b = (x, y, x + size, y + size) ∧ 0 < size ∧
        (W : ℚ) * (1/20) ≤ size ∧ size ≤ (W : ℚ) * (3/20) ∧
        b.1 < b.2.2.1 ∧ b.2.1 < b.2.2.2 := by
  have hWQ : (0 : ℚ) < (W : ℚ) := by exact_mod_cast hW
  refine ⟨by simp [generateMockDetections], ?_, ?_, ?_⟩
  · show 15 ≤ (⌊rand 0 * 10⌋).toNat + 15
    omega
  · show (⌊rand 0 * 10⌋).toNat + 15 ≤ 24
    have h0 := hr 0
    have h10 : rand 0 * 10 < ((10 : ℤ) : ℚ) := by
      have := mul_lt_mul_of_pos_right h0.2 (by norm_num : (0 : ℚ) < 10)
      push_cast
      linarith
    have hfl : ⌊rand 0 * 10⌋ < 10 := Int.floor_lt.mpr h10
    omega
  · intro b hb
    simp only [generateMockDetections, List.mem_map, List.mem_range] at hb
    obtain ⟨i, hi, rfl⟩ := hb
    have h1 := hr (3 * i + 1)
    have hnn : 0 ≤ rand (3 * i + 1) * ((W : ℚ) * (1/10)) :=
      mul_nonneg h1.1 (by positivity)
    have hub : rand (3 * i + 1) * ((W : ℚ) * (1/10)) ≤ (W : ℚ) * (1/10) :=
      mul_le_of_le_one_left (by positivity) (le_of_lt h1.2)
    have hpos : 0 < rand (3 * i + 1) * ((W : ℚ) * (1/10)) + (W : ℚ) * (1/20) := by
      nlinarith
    exact ⟨_, _, _, rfl, hpos, by nlinarith, by nlinarith,
      by simpa using hpos, by simpa using hpos⟩

/-- Witness for C10: the constant-zero random stream on a 100 by 50 image
(count 15, every box of side exactly 5). -/
theorem generateMockDetections_shape_witness :
    (0 < 100 ∧ 0 < 50 ∧ ∀ i : ℕ, 0 ≤ (fun _ : ℕ => (0 : ℚ)) i ∧ (fun _ : ℕ => (0 : ℚ)) i < 1) ∧
    ((generateMockDetections (fun _ => 0) 100 50).log_count =
      (generateMockDetections (fun _ => 0) 100 50).detections.length ∧
    15 ≤ (generateMockDetections (fun _ => 0) 100 50).log_count ∧
    (generateMockDetections (fun _ => 0) 100 50).log_count ≤ 24 ∧
    ∀ b ∈ (generateMockDetections (fun _ => 0) 100 50).detections,
      ∃ x y size : ℚ, b = (x, y, x + size, y + size) ∧ 0 < size ∧
        ((100 : ℕ) : ℚ) * (1/20) ≤ size ∧ size ≤ ((100 : ℕ) : ℚ) * (3/20) ∧
        b.1 < b.2.2.1 ∧ b.2.1 < b.2.2.2) :=
  ⟨⟨by decide, by decide, fun _ => ⟨le_refl 0, by norm_num⟩⟩,
    generateMockDetections_shape (fun _ => 0) 100 50 (by decide) (by decide)
      (fun _ => ⟨le_refl 0, by norm_num⟩)⟩

/-- Claim C4 counterexample: permuting the detection set is not
pixel-identical.  On a 100 by 100 image at scale 1, for the boxes
(10,10,30,30) and (0,0,100,100), the pixel (32, 20) lies in the first box's
shadow stroke (a 50% black paint) and in the second box's translucent fill;
source-over compositing of those two translucent paints does not commute,
so the two orders give different colours at that pixel over a white image. -/
theorem permutation_changes_pixels :
    List.Perm [((10 : ℚ), (10 : ℚ), (30 : ℚ), (30 : ℚ)), ((0 : ℚ), (0 : ℚ), (100 : ℚ), (100 : ℚ))]
      [((0 : ℚ), (0 : ℚ), (100 : ℚ), (100 : ℚ)), ((10 : ℚ), (10 : ℚ), (30 : ℚ), (30 : ℚ))] ∧
    pixelColor (fun _ _ => ⟨255, 255, 255⟩)
      (renderScene ⟨100, 100⟩ 100
        [((10 : ℚ), (10 : ℚ), (30 : ℚ), (30 : ℚ)), ((0 : ℚ), (0 : ℚ), (100 : ℚ), (100 : ℚ))]) 32 20 ≠
    pixelColor (fun _ _ => ⟨255, 255, 255⟩)
      (renderScene ⟨100, 100⟩ 100
        [((0 : ℚ), (0 : ℚ), (100 : ℚ), (100 : ℚ)), ((10 : ℚ), (10 : ℚ), (30 : ℚ), (30 : ℚ))]) 32 20 := by
  constructor
  · exact List.Perm.swap _ _ _
  · simp only [pixelColor, renderScene_ops]
    norm_num [boxOpsList, boxOps, List.foldl_cons, List.foldl_nil, paintOp, inFill, inStroke,
      qmin, qmax, blend, sampleImage, shadow50, green400, green400Fill]

/-- Claim C4 amended: for every decoded image, container width, and
detection set whose boxes' painted envelopes are pairwise separated (no two
boxes' paints can reach a common pixel), permuting the detection set leaves
the rendered surface dimensions and every pixel of the rendered output
unchanged. -/
theorem permutation_invariance_separated (img : DecodedImage) (C : ℕ)
    (dets dets' : List BoundingBox) (hperm : List.Perm dets dets')
    (hsep : List.Pairwise (separated ((C : ℚ) / (img.naturalWidth : ℚ))) dets) :
    (renderScene img C dets').width = (renderScene img C dets).width ∧
    (renderScene img C dets').height = (renderScene img C dets).height ∧
    ∀ (base : ℚ → ℚ → RGB) (px py : ℚ),
      pixelColor base (renderScene img C dets') px py =
        pixelColor base (renderScene img C dets) px py := by
  refine ⟨rfl, rfl, ?_⟩
  intro base px py
  simp only [pixelColor, renderScene_ops, List.foldl_cons]
  rw [foldl_boxOpsList, foldl_boxOpsList]
  exact (foldl_paintBox_perm base px py ((C : ℚ) / (img.naturalWidth : ℚ)) hperm hsep _).symm

/-- Witness for the amended C4: two well-separated boxes at scale 1 can be
swapped without changing any pixel. -/
theorem permutation_invariance_separated_witness :
    List.Perm [((0 : ℚ), (0 : ℚ), (10 : ℚ), (10 : ℚ)), ((50 : ℚ), (50 : ℚ), (60 : ℚ), (60 : ℚ))]
      [((50 : ℚ), (50 : ℚ), (60 : ℚ), (60 : ℚ)), ((0 : ℚ), (0 : ℚ), (10 : ℚ), (10 : ℚ))] ∧
    List.Pairwise (separated ((1 : ℚ) / ((⟨1, 1⟩ : DecodedImage).naturalWidth : ℚ)))
      [((0 : ℚ), (0 : ℚ), (10 : ℚ), (10 : ℚ)), ((50 : ℚ), (50 : ℚ), (60 : ℚ), (60 : ℚ))] ∧
    ((renderScene ⟨1, 1⟩ 1
        [((50 : ℚ), (50 : ℚ), (60 : ℚ), (60 : ℚ)), ((0 : ℚ), (0 : ℚ), (10 : ℚ), (10 : ℚ))]).width =
      (renderScene ⟨1, 1⟩ 1
        [((0 : ℚ), (0 : ℚ), (10 : ℚ), (10 : ℚ)), ((50 : ℚ), (50 : ℚ), (60 : ℚ), (60 : ℚ))]).width ∧
    (renderScene ⟨1, 1⟩ 1
        [((50 : ℚ), (50 : ℚ), (60 : ℚ), (60 : ℚ)), ((0 : ℚ), (0 : ℚ), (10 : ℚ), (10 : ℚ))]).height =
      (renderScene ⟨1, 1⟩ 1
        [((0 : ℚ), (0 : ℚ), (10 : ℚ), (10 : ℚ)), ((50 : ℚ), (50 : ℚ), (60 : ℚ), (60 : ℚ))]).height ∧
    ∀ (base : ℚ → ℚ → RGB) (px py : ℚ),
      pixelColor base (renderScene ⟨1, 1⟩ 1
          [((50 : ℚ), (50 : ℚ), (60 : ℚ), (60 : ℚ)), ((0 : ℚ), (0 : ℚ), (10 : ℚ), (10 : ℚ))]) px py =
        pixelColor base (renderScene ⟨1, 1⟩ 1
          [((0 : ℚ), (0 : ℚ), (10 : ℚ), (10 : ℚ)), ((50 : ℚ), (50 : ℚ), (60 : ℚ), (60 : ℚ))]) px py) := by
  have hsep : List.Pairwise (separated ((1 : ℚ) / ((⟨1, 1⟩ : DecodedImage).naturalWidth : ℚ)))
      [((0 : ℚ), (0 : ℚ), (10 : ℚ), (10 : ℚ)), ((50 : ℚ), (50 : ℚ), (60 : ℚ), (60 : ℚ))] := by
    norm_num [List.pairwise_cons, separated, scaledRect, Rect.xlo, Rect.xhi, Rect.ylo, Rect.yhi,
      qmin, qmax]
  exact ⟨List.Perm.swap _ _ _, hsep,
    permutation_invariance_separated ⟨1, 1⟩ 1 _ _ (List.Perm.swap _ _ _) hsep⟩

end Timber
